import Mathlib

/-!
Verification of the fund-holdings valuation service in `src/app.py`.

The core pipeline is embedded shallowly:
- provider adapters `fetch_from_eastmoney` / `fetch_from_sina` are modelled over
  an abstract provider-response type, with Python's exception semantics made
  explicit through `Except PyExc`;
- the resolver `get_best_data` is modelled together with the number of fetch
  attempts it performs against each provider;
- the valuators `compute_fund_view` / `get_valuations` and the holdings-store
  mutations `add_fund` / `delete_fund` are modelled as pure functions;
- numeric fields use `ℚ` in place of Python floats: every arithmetic identity
  claimed of the code is an exact structural identity of the expressions the
  code computes.
-/

/-- Session state of the SessionClassifier (spec §4.1). -/
inductive Session where
  | weekend
  | trading_hours
  | off_hours
deriving DecidableEq

/-- Which provider's quote the resolver settles on. -/
inductive Choice where
  | primary
  | secondary
  | noQuote
deriving DecidableEq

/-- Modelled from the spec, §4.1 SessionClassifier: `weekend` when the local
day-of-week is Saturday (5) or Sunday (6), checked first; else `trading_hours`
when the local hour lies in [9, 15]; else `off_hours`. -/
def classify (wday hour : Nat) : Session :=
  if 5 ≤ wday then Session.weekend
  else if 9 ≤ hour ∧ hour ≤ 15 then Session.trading_hours
  else Session.off_hours

/-- Modelled from the spec, §4.4: the 10-row decision table
(session state × availability → chosen quote). -/
def specTable : Session → Bool → Bool → Choice
  | Session.trading_hours, true, _ => Choice.primary
  | Session.trading_hours, false, true => Choice.secondary
  | Session.trading_hours, false, false => Choice.noQuote
  | Session.weekend, _, true => Choice.secondary
  | Session.weekend, true, false => Choice.primary
  | Session.weekend, false, false => Choice.noQuote
  | Session.off_hours, true, _ => Choice.primary
  | Session.off_hours, false, true => Choice.secondary
  | Session.off_hours, false, false => Choice.noQuote

/-- Session classification as the code actually branches (app.py lines 104-116):
the hour-based trading check is applied first and is not restricted to
weekdays; the weekend test only matters outside the [9, 15] window. -/
def classifyHourFirst (wday hour : Nat) : Session :=
  if 9 ≤ hour ∧ hour ≤ 15 then Session.trading_hours
  else if 5 ≤ wday then Session.weekend
  else Session.off_hours

/-- Reading off the table: which of the two fetched options a `Choice` denotes. -/
def applyChoice (c : Choice) (eastmoney sina : Option α) : Option α :=
  match c with
  | Choice.primary => eastmoney
  | Choice.secondary => sina
  | Choice.noQuote => none

/-- Embeds `get_best_data` (app.py lines 103-116).  `wday`/`hour` are
`time.localtime()`'s `tm_wday` (0 = Monday) and `tm_hour`; the two `Option`
arguments are what one fetch of each adapter would return (a non-`None` adapter
result is a non-empty dict, hence truthy).  Besides the chosen quote the model
returns how many fetch attempts were made against eastmoney and against sina:
eastmoney is fetched unconditionally at line 108, sina at line 112 unless the
early return at line 110 fires. -/
def get_best_data (wday hour : Nat) (eastmoney sina : Option α) :
    Option α × Nat × Nat :=
  let is_weekend : Bool := decide (5 ≤ wday)
  let is_trading_time : Bool := decide (9 ≤ hour ∧ hour ≤ 15)
  if is_trading_time && eastmoney.isSome then (eastmoney, 1, 0)
  else if is_weekend then (sina.orElse fun _ => eastmoney, 1, 1)
  else (eastmoney.orElse fun _ => sina, 1, 1)

/-- The Python exception classes that can arise inside the two adapters. -/
inductive PyExc where
  | requestException
  | timeoutExc
  | valueError
  | jsonDecodeError
  | unicodeDecodeError
  | attributeError
  | typeError
  | indexError
deriving DecidableEq

/-- Membership in Python's `ValueError` class: `json.JSONDecodeError` and
`UnicodeDecodeError` are subclasses of `ValueError`. -/
def isValueError : PyExc → Bool
  | PyExc.valueError => true
  | PyExc.jsonDecodeError => true
  | PyExc.unicodeDecodeError => true
  | _ => false

/-- Membership in `requests.RequestException`: `requests.Timeout` is a
subclass. -/
def isRequestException : PyExc → Bool
  | PyExc.requestException => true
  | PyExc.timeoutExc => true
  | _ => false

/-- JSON values, as produced by `json.loads`. -/
inductive JsonVal where
  | null
  | bool (b : Bool)
  | num (q : ℚ)
  | str (s : String)
  | arr (xs : List JsonVal)
  | obj (kvs : List (String × JsonVal))

/-- Numeric value of a run of decimal digits. -/
def natOfDigits (cs : List Char) : Nat :=
  cs.foldl (fun n c => n * 10 + (c.toNat - Char.toNat '0')) 0

/-- Unsigned decimal number: digits with an optional fractional part, at least
one digit in total. -/
def parseUnsigned (cs : List Char) : Option ℚ :=
  match cs.span Char.isDigit with
  | (intPart, rest) =>
    match rest with
    | [] => if intPart.isEmpty then none else some (natOfDigits intPart : ℚ)
    | c :: frac =>
      if c = '.' ∧ frac.all Char.isDigit ∧ (intPart ≠ [] ∨ frac ≠ []) then
        some ((natOfDigits intPart : ℚ) + (natOfDigits frac : ℚ) / (10 ^ frac.length))
      else none

/-- The subset of Python `float(str)` exercised by this program: optional
surrounding whitespace, optional sign, decimal digits with an optional
fractional part (exponents, `inf` and `nan` are outside the inputs the claims
range over and are treated as parse failures). -/
def pyFloatOfString (s : String) : Option ℚ :=
  match s.trim.toList with
  | c :: rest =>
    if c = '+' then parseUnsigned rest
    else if c = '-' then (parseUnsigned rest).map Neg.neg
    else parseUnsigned (c :: rest)
  | [] => none

/-- Python `float(x)` on a JSON value: numbers and booleans convert, numeric
strings parse (`ValueError` otherwise), anything else raises `TypeError`. -/
def pyFloat : JsonVal → Except PyExc ℚ
  | JsonVal.num q => Except.ok q
  | JsonVal.bool b => Except.ok (if b then 1 else 0)
  | JsonVal.str s =>
    match pyFloatOfString s with
    | some q => Except.ok q
    | none => Except.error PyExc.valueError
  | JsonVal.null => Except.error PyExc.typeError
  | JsonVal.arr _ => Except.error PyExc.typeError
  | JsonVal.obj _ => Except.error PyExc.typeError

/-- Python `x.get(key, default)`: a dict lookup with default; on any non-dict
value `.get` does not exist and an `AttributeError` is raised. -/
def pyDictGet (v : JsonVal) (key : String) (dflt : JsonVal) : Except PyExc JsonVal :=
  match v with
  | JsonVal.obj kvs => Except.ok ((kvs.lookup key).getD dflt)
  | _ => Except.error PyExc.attributeError


/-- A provider quote as the adapters build it (the Python dict returned at
app.py lines 58-65 and 91-98).  `name` and `update_time` keep the raw JSON
value eastmoney's payload supplied, exactly as Python stores it. -/
structure RemoteQuote where
  source : String
  name : JsonVal
  gsz : ℚ
  dwjz : ℚ
  gszzl : ℚ
  update_time : JsonVal

/-- The distinguishable outcomes of the HTTP exchange inside
`fetch_from_eastmoney`, which the rest of the adapter branches on: the request
raised, or it produced a body in which the regex `jsonpgz\((.*?)\);` finds no
wrapper, or a wrapper whose payload is not valid JSON, or a wrapper whose
payload parses to the JSON value `v`. -/
inductive EmResponse where
  | netFail
  | timedOut
  | noWrapper
  | badJson
  | payload (v : JsonVal)

/-- The distinguishable outcomes of the HTTP exchange inside `fetch_from_sina`
(after the gbk-with-fallback decode of the body): the request raised, or the
regex `="(.*?)"` finds no quoted record, or it captures a record which
`.split(',')` divides into `fields`. -/
inductive SinaResponse where
  | netFail
  | timedOut
  | noMatch
  | record (fields : List String)

/-- The `try` body of `fetch_from_eastmoney` (app.py lines 50-65).  The dict
literal evaluates its values in order, so the first `.get` on a non-dict
payload raises `AttributeError` before any `float` conversion runs. -/
def eastmoney_body (code : String) (r : EmResponse) :
    Except PyExc (Option RemoteQuote) :=
  match r with
  | EmResponse.netFail => Except.error PyExc.requestException
  | EmResponse.timedOut => Except.error PyExc.timeoutExc
  | EmResponse.noWrapper => Except.ok none
  | EmResponse.badJson => Except.error PyExc.jsonDecodeError
  | EmResponse.payload v => do
    let nameV ← pyDictGet v "name" (JsonVal.str ("基金" ++ code))
    let gsz ← pyFloat (← pyDictGet v "gsz" (JsonVal.num 0))
    let dwjz ← pyFloat (← pyDictGet v "dwjz" (JsonVal.num 0))
    let gszzl ← pyFloat (← pyDictGet v "gszzl" (JsonVal.num 0))
    let utV ← pyDictGet v "gztime" (JsonVal.str "")
    Except.ok (some ⟨"eastmoney", nameV, gsz, dwjz, gszzl, utV⟩)

/-- Embeds `fetch_from_eastmoney` (app.py lines 48-67): the `try` body wrapped
in `except (requests.RequestException, ValueError, json.JSONDecodeError)`,
which collapses exactly those exception classes to `None`; any other exception
escapes the adapter. -/
def fetch_from_eastmoney (code : String) (r : EmResponse) :
    Except PyExc (Option RemoteQuote) :=
  match eastmoney_body code r with
  | Except.ok x => Except.ok x
  | Except.error e =>
    if isRequestException e || isValueError e || e == PyExc.jsonDecodeError then
      Except.ok none
    else Except.error e

/-- Python `float` applied to a string field of the sina record. -/
def pyFloatStrExc (s : String) : Except PyExc ℚ :=
  match pyFloatOfString s with
  | some q => Except.ok q
  | none => Except.error PyExc.valueError

/-- The record branch of `fetch_from_sina`'s `try` body (app.py lines 82-98):
require at least 5 positional fields, convert fields 1 and 3, and derive the
percent change, guarding the division by a truthiness test on `dwjz`. -/
def sina_record (fields : List String) : Except PyExc (Option RemoteQuote) :=
  if fields.length < 5 then Except.ok none
  else
    let name := fields.getD 0 ""
    match pyFloatStrExc (fields.getD 1 "") with
    | Except.error e => Except.error e
    | Except.ok gsz =>
      match pyFloatStrExc (fields.getD 3 "") with
      | Except.error e => Except.error e
      | Except.ok dwjz =>
        let gszzl := if dwjz ≠ 0 then (gsz - dwjz) / dwjz * 100 else 0
        Except.ok (some ⟨"sina", JsonVal.str name, gsz, dwjz, gszzl,
          JsonVal.str (fields.getD 4 "")⟩)

/-- The `try` body of `fetch_from_sina` (app.py lines 72-98). -/
def sina_body (r : SinaResponse) : Except PyExc (Option RemoteQuote) :=
  match r with
  | SinaResponse.netFail => Except.error PyExc.requestException
  | SinaResponse.timedOut => Except.error PyExc.timeoutExc
  | SinaResponse.noMatch => Except.ok none
  | SinaResponse.record fields => sina_record fields

/-- Embeds `fetch_from_sina` (app.py lines 70-100): the `try` body wrapped in
`except (requests.RequestException, ValueError, IndexError)`.  The inner
decode fallback (lines 75-78) is absorbed into `SinaResponse`, whose cases
describe the body after decoding. -/
def fetch_from_sina (code : String) (r : SinaResponse) :
    Except PyExc (Option RemoteQuote) :=
  match sina_body r with
  | Except.ok x => Except.ok x
  | Except.error e =>
    if isRequestException e || isValueError e || e == PyExc.indexError then
      Except.ok none
    else Except.error e


/-- A holding record from the holdings store (`funds.json`).  `name` is
optional because stored dicts may lack the key; `shares` and `cost` are the
store's floats. -/
structure Holding where
  code : String
  name : Option String
  shares : ℚ
  cost : ℚ
deriving DecidableEq

/-- The resolved-quote dict as `compute_fund_view` consumes it: every field is
read with `.get` and may be absent.  A quote built by an adapter has every
field present. -/
structure Remote where
  source : Option String
  name : Option String
  gsz : Option ℚ
  dwjz : Option ℚ
  gszzl : Option ℚ
  update_time : Option String
deriving DecidableEq

/-- The per-holding valuation view (the dict built at app.py lines 153-166). -/
structure FundView where
  code : String
  name : String
  shares : ℚ
  cost : ℚ
  gsz : ℚ
  dwjz : ℚ
  gszzl : ℚ
  market_value : ℚ
  day_profit : ℚ
  total_profit : ℚ
  update_time : String
  source : String
deriving DecidableEq

/-- Python `a or b` on an optional string `a`: `b` when `a` is `None` or the
empty string (both falsy), else the string in `a`. -/
def pyOr (a : Option String) (b : String) : String :=
  match a with
  | none => b
  | some s => if s = "" then b else s

/-- Embeds `format_update_time` (app.py lines 123-126): `'--'` for a missing or
empty value, the value itself otherwise. -/
def format_update_time (value : Option String) : String :=
  match value with
  | none => "--"
  | some s => if s = "" then "--" else s

/-- Embeds `compute_fund_view` (app.py lines 129-166).  With a remote quote,
each field is read with its `.get` default (`cost` for `gsz`/`dwjz`, `0` for
`gszzl`, `'unknown'` for `source`); without one, the cost-basis offline view is
built.  The derived fields are the products of app.py lines 149-151. -/
def compute_fund_view (holding : Holding) (remote : Option Remote) : FundView :=
  let code := holding.code
  let name := pyOr holding.name ("基金" ++ code)
  let shares := holding.shares
  let cost := holding.cost
  match remote with
  | some r =>
    let gsz := r.gsz.getD cost
    let dwjz := r.dwjz.getD cost
    let gszzl := r.gszzl.getD 0
    let name2 := pyOr r.name name
    let update_time := format_update_time r.update_time
    let source := r.source.getD "unknown"
    { code := code, name := name2, shares := shares, cost := cost,
      gsz := gsz, dwjz := dwjz, gszzl := gszzl,
      market_value := shares * gsz,
      day_profit := (gsz - dwjz) * shares,
      total_profit := (gsz - cost) * shares,
      update_time := update_time, source := source }
  | none =>
    let gsz := cost
    let dwjz := cost
    { code := code, name := name, shares := shares, cost := cost,
      gsz := gsz, dwjz := dwjz, gszzl := 0,
      market_value := shares * gsz,
      day_profit := (gsz - dwjz) * shares,
      total_profit := (gsz - cost) * shares,
      update_time := "--", source := "offline" }

/-- One iteration of the loop in `get_valuations` (app.py lines 241-247):
append the computed view and add its three figures into the running totals. -/
def get_valuations_step (fetch : String → Option Remote)
    (acc : List FundView × ℚ × ℚ × ℚ) (holding : Holding) :
    List FundView × ℚ × ℚ × ℚ :=
  let view := compute_fund_view holding (fetch holding.code)
  (acc.1 ++ [view], acc.2.1 + view.market_value,
   acc.2.2.1 + view.day_profit, acc.2.2.2 + view.total_profit)

/-- Embeds the accumulation in `get_valuations` (app.py lines 233-258): the
per-code quote resolution is abstracted as `fetch` (in the code it is
`get_best_data`, whose network behaviour is modelled separately).  Returns the
view list and the three totals `total_market_value`, `total_day_profit`,
`total_hold_profit`. -/
def get_valuations (holdings : List Holding) (fetch : String → Option Remote) :
    List FundView × ℚ × ℚ × ℚ :=
  List.foldl (get_valuations_step fetch) ([], 0, 0, 0) holdings

/-- The in-place update applied by `add_fund` when a record with the submitted
code already exists (app.py lines 203-208): shares and cost are overwritten,
the name only when a non-empty name was supplied. -/
def updateHolding (name : String) (shares cost : ℚ) (h : Holding) : Holding :=
  { h with shares := shares, cost := cost,
           name := if name = "" then h.name else some name }

/-- The record `add_fund` appends when no record with the code exists
(app.py lines 212-217). -/
def newHolding (code name : String) (shares cost : ℚ) : Holding :=
  { code := code, name := some (if name = "" then "基金" ++ code else name),
    shares := shares, cost := cost }

/-- Embeds the holdings-list mutation of `add_fund` (app.py lines 200-219):
walk the list, update the first record whose code matches and stop (`break`);
if none matches, append a fresh record at the end. -/
def add_fund_update (code name : String) (shares cost : ℚ) :
    List Holding → List Holding
  | [] => [newHolding code name shares cost]
  | h :: t =>
    if h.code = code then updateHolding name shares cost h :: t
    else h :: add_fund_update code name shares cost t

/-- Embeds the holdings-list mutation of `delete_fund` (app.py lines 223-230):
keep exactly the records whose code differs from the submitted one, and report
success unconditionally. -/
def delete_fund_update (code : String) (holdings : List Holding) :
    List Holding × Bool :=
  (holdings.filter (fun item => decide (item.code ≠ code)), true)

/-- A concrete eastmoney quote (the §8 end-to-end example: estimate 1.6, last
net value 1.55, percent change 3.2). -/
def emSample : RemoteQuote :=
  ⟨"eastmoney", JsonVal.str "X", 8 / 5, 31 / 20, 16 / 5, JsonVal.str "14:00"⟩

/-- A concrete sina quote (estimate 1.58, last net value 1.55). -/
def sinaSample : RemoteQuote :=
  ⟨"sina", JsonVal.str "X", 79 / 50, 31 / 20, 69 / 31, JsonVal.str "2026-10-10"⟩

/-- Which provider a resolver result came from, read off the `source` tag the
adapters stamp on every quote they build. -/
def resultChoice (r : Option RemoteQuote) : Choice :=
  match r with
  | none => Choice.noQuote
  | some q => if q.source = "eastmoney" then Choice.primary else Choice.secondary

/-- C1, counterexample: at wall-clock time Saturday 10:00 (tm_wday = 5,
tm_hour = 10) with both providers available, the session state of §4.1 is
`weekend` and the §4.4 table picks the secondary quote, but `get_best_data`
hits its `is_trading_time and eastmoney` branch first and returns the primary
quote: the weekend check does not take precedence over the hour check. -/
theorem get_best_data_weekend_daytime_cex :
    resultChoice (get_best_data 5 10 (some emSample) (some sinaSample)).1 ≠
      specTable (classify 5 10) (some emSample).isSome (some sinaSample).isSome := by
  decide

/-- C1, amended: the resolver's choice agrees with the §4.4 decision table
applied to the session state in which the hour-based `trading_hours` check
takes precedence over the weekend check (`classifyHourFirst`): a Saturday or
Sunday with local hour in [9, 15] behaves as `trading_hours`, so with the
primary available the primary quote is chosen. -/
theorem get_best_data_matches_hour_first_table (wday hour : Nat)
    (em sina : Option α) :
    (get_best_data wday hour em sina).1 =
      applyChoice (specTable (classifyHourFirst wday hour) em.isSome sina.isSome)
        em sina := by
  by_cases ht : 9 ≤ hour ∧ hour ≤ 15 <;> by_cases hw : 5 ≤ wday <;>
    cases em <;> cases sina <;>
      simp [get_best_data, classifyHourFirst, specTable, applyChoice, ht, hw,
        Option.orElse]

/-- C3, counterexample: on a Monday at 20:00 (off_hours) with both providers
available the §4.4 table prefers the primary, and the primary quote is indeed
both available and chosen — yet `get_best_data` still performs one fetch
against the secondary provider before returning, so an available preferred
quote does not stop the other provider from being fetched. -/
theorem get_best_data_offhours_extra_fetch_cex :
    (get_best_data 0 20 (some emSample) (some sinaSample)).1 = some emSample ∧
    (get_best_data 0 20 (some emSample) (some sinaSample)).2.2 = 1 ∧
    specTable (classify 0 20) true true = Choice.primary :=
  ⟨rfl, rfl, rfl⟩

/-- C3, amended: each provider gets at most one fetch attempt per resolution —
the primary is fetched exactly once, unconditionally; the secondary's single
fetch is skipped exactly when the local hour is in [9, 15] and the primary
fetch yielded a quote.  Outside that case the secondary is fetched even when
the decision table does not need it. -/
theorem get_best_data_fetch_counts (wday hour : Nat) (em sina : Option α) :
    (get_best_data wday hour em sina).2.1 = 1 ∧
    (get_best_data wday hour em sina).2.2 ≤ 1 ∧
    ((get_best_data wday hour em sina).2.2 = 0 ↔
      (9 ≤ hour ∧ hour ≤ 15) ∧ em.isSome = true) := by
  by_cases ht : 9 ≤ hour ∧ hour ≤ 15 <;> by_cases hw : 5 ≤ wday <;> cases em <;>
    simp [get_best_data, ht, hw]

/-- C2, failing input: `fetch_from_eastmoney` receiving the response body
`jsonpgz("x");` — the JSONP wrapper is present and its payload is the valid
JSON value `"x"`, but `"x"` is a string, so `data.get('name', ...)` raises
`AttributeError`, which is not in the adapter's `except` tuple and escapes the
adapter boundary instead of collapsing to the unavailable result. -/
theorem eastmoney_attribute_error_escapes :
    fetch_from_eastmoney "000001" (EmResponse.payload (JsonVal.str "x")) =
      Except.error PyExc.attributeError := rfl

/-- A concrete holding (the §8 end-to-end example: 100 shares at cost 1.5). -/
def holdingSample : Holding := ⟨"000001", some "X", 100, 3 / 2⟩

/-- C4 (confirmed): with both providers unavailable, at any wall-clock time,
the resolver yields no quote and the view built for a holding with positive
shares and cost is the cost-basis offline view: estimate and last net value
equal the cost, percent change and both profits are zero, the market value is
shares times cost, the source is `offline` and the update time is `--`. -/
theorem offline_view_cost_basis (wday hour : Nat) (hold : Holding)
    (hs : 0 < hold.shares) (hc : 0 < hold.cost) :
    (compute_fund_view hold (get_best_data wday hour (none : Option Remote) none).1).gsz = hold.cost ∧
    (compute_fund_view hold (get_best_data wday hour (none : Option Remote) none).1).dwjz = hold.cost ∧
    (compute_fund_view hold (get_best_data wday hour (none : Option Remote) none).1).gszzl = 0 ∧
    (compute_fund_view hold (get_best_data wday hour (none : Option Remote) none).1).day_profit = 0 ∧
    (compute_fund_view hold (get_best_data wday hour (none : Option Remote) none).1).total_profit = 0 ∧
    (compute_fund_view hold (get_best_data wday hour (none : Option Remote) none).1).market_value = hold.shares * hold.cost ∧
    (compute_fund_view hold (get_best_data wday hour (none : Option Remote) none).1).source = "offline" ∧
    (compute_fund_view hold (get_best_data wday hour (none : Option Remote) none).1).update_time = "--" := by
  have hnone : (get_best_data wday hour (none : Option Remote) none).1 = none := by
    simp [get_best_data]
  rw [hnone]
  simp [compute_fund_view, sub_self]

/-- C4, witness at the §8 sample holding on Monday 10:00. -/
theorem offline_view_cost_basis_witness :
    0 < holdingSample.shares ∧ 0 < holdingSample.cost ∧
    ((compute_fund_view holdingSample (get_best_data 0 10 (none : Option Remote) none).1).gsz = holdingSample.cost ∧
     (compute_fund_view holdingSample (get_best_data 0 10 (none : Option Remote) none).1).dwjz = holdingSample.cost ∧
     (compute_fund_view holdingSample (get_best_data 0 10 (none : Option Remote) none).1).gszzl = 0 ∧
     (compute_fund_view holdingSample (get_best_data 0 10 (none : Option Remote) none).1).day_profit = 0 ∧
     (compute_fund_view holdingSample (get_best_data 0 10 (none : Option Remote) none).1).total_profit = 0 ∧
     (compute_fund_view holdingSample (get_best_data 0 10 (none : Option Remote) none).1).market_value = holdingSample.shares * holdingSample.cost ∧
     (compute_fund_view holdingSample (get_best_data 0 10 (none : Option Remote) none).1).source = "offline" ∧
     (compute_fund_view holdingSample (get_best_data 0 10 (none : Option Remote) none).1).update_time = "--") :=
  ⟨by norm_num [holdingSample], by norm_num [holdingSample],
   offline_view_cost_basis 0 10 holdingSample (by norm_num [holdingSample])
     (by norm_num [holdingSample])⟩

/-- C5 (confirmed): when a resolved quote is present with its numeric fields
and source set, the view copies estimate, last net value, percent change and
source from the quote; the name is the quote's name or else the holding's
display name; the update time is the quote's timestamp formatted, where a
missing or empty timestamp formats to `--`; and the derived fields are
market_value = shares * estimate, day_profit = (estimate - last_net_value) *
shares, total_profit = (estimate - cost) * shares. -/
theorem view_from_quote (hold : Holding) (r : Remote) (e l p : ℚ) (s : String)
    (hg : r.gsz = some e) (hd : r.dwjz = some l) (hp : r.gszzl = some p)
    (hsrc : r.source = some s) :
    (compute_fund_view hold (some r)).gsz = e ∧
    (compute_fund_view hold (some r)).dwjz = l ∧
    (compute_fund_view hold (some r)).gszzl = p ∧
    (compute_fund_view hold (some r)).source = s ∧
    (compute_fund_view hold (some r)).name =
      pyOr r.name (pyOr hold.name ("基金" ++ hold.code)) ∧
    (compute_fund_view hold (some r)).update_time =
      format_update_time r.update_time ∧
    format_update_time (some "") = "--" ∧
    format_update_time none = "--" ∧
    (compute_fund_view hold (some r)).market_value = hold.shares * e ∧
    (compute_fund_view hold (some r)).day_profit = (e - l) * hold.shares ∧
    (compute_fund_view hold (some r)).total_profit = (e - hold.cost) * hold.shares := by
  simp [compute_fund_view, hg, hd, hp, hsrc, format_update_time]

/-- A concrete resolved quote with every field present (the §8 example quote
from the primary provider). -/
def remoteFullSample : Remote :=
  ⟨some "eastmoney", some "X", some (8 / 5), some (31 / 20), some (16 / 5),
   some "14:00"⟩

/-- C5, witness at the §8 sample holding and quote. -/
theorem view_from_quote_witness :
    remoteFullSample.gsz = some (8 / 5) ∧
    remoteFullSample.dwjz = some (31 / 20) ∧
    remoteFullSample.gszzl = some (16 / 5) ∧
    remoteFullSample.source = some "eastmoney" ∧
    ((compute_fund_view holdingSample (some remoteFullSample)).gsz = 8 / 5 ∧
     (compute_fund_view holdingSample (some remoteFullSample)).dwjz = 31 / 20 ∧
     (compute_fund_view holdingSample (some remoteFullSample)).gszzl = 16 / 5 ∧
     (compute_fund_view holdingSample (some remoteFullSample)).source = "eastmoney" ∧
     (compute_fund_view holdingSample (some remoteFullSample)).name =
       pyOr remoteFullSample.name (pyOr holdingSample.name ("基金" ++ holdingSample.code)) ∧
     (compute_fund_view holdingSample (some remoteFullSample)).update_time =
       format_update_time remoteFullSample.update_time ∧
     format_update_time (some "") = "--" ∧
     format_update_time none = "--" ∧
     (compute_fund_view holdingSample (some remoteFullSample)).market_value =
       holdingSample.shares * (8 / 5) ∧
     (compute_fund_view holdingSample (some remoteFullSample)).day_profit =
       (8 / 5 - 31 / 20) * holdingSample.shares ∧
     (compute_fund_view holdingSample (some remoteFullSample)).total_profit =
       (8 / 5 - holdingSample.cost) * holdingSample.shares) :=
  ⟨rfl, rfl, rfl, rfl,
   view_from_quote holdingSample remoteFullSample (8 / 5) (31 / 20) (16 / 5)
     "eastmoney" rfl rfl rfl rfl⟩

/-- C10 (confirmed): when a quote dict is present, each field reads its own
`.get` default independently — a missing `gsz` defaults to the holding's cost
(not zero), a missing `dwjz` likewise defaults to the cost, a missing `gszzl`
defaults to 0 and a missing `source` to `unknown`; consequently a quote
missing both numeric fields yields day profit and total profit 0 while the
view's source is still the quote's tag (or `unknown`), not `offline`. -/
theorem view_defaults_missing_fields (hold : Holding) (r : Remote) :
    (r.gsz = none → (compute_fund_view hold (some r)).gsz = hold.cost) ∧
    (r.dwjz = none → (compute_fund_view hold (some r)).dwjz = hold.cost) ∧
    (r.gszzl = none → (compute_fund_view hold (some r)).gszzl = 0) ∧
    (r.source = none → (compute_fund_view hold (some r)).source = "unknown") ∧
    (compute_fund_view hold (some r)).source = r.source.getD "unknown" ∧
    (r.gsz = none → r.dwjz = none →
      (compute_fund_view hold (some r)).day_profit = 0 ∧
      (compute_fund_view hold (some r)).total_profit = 0) := by
  refine ⟨fun hg => ?_, fun hd => ?_, fun hp => ?_, fun hsrc => ?_, ?_,
    fun hg hd => ?_⟩
  · simp [compute_fund_view, hg]
  · simp [compute_fund_view, hd]
  · simp [compute_fund_view, hp]
  · simp [compute_fund_view, hsrc]
  · simp [compute_fund_view]
  · simp [compute_fund_view, hg, hd, sub_self]

/-- A concrete quote dict carrying only a source tag and timestamps, with all
numeric keys absent. -/
def remoteMissingSample : Remote :=
  ⟨some "sina", some "Y", none, none, none, some "15:00"⟩

/-- A concrete quote dict with only the `dwjz` key absent. -/
def remoteDwjzMissingSample : Remote :=
  ⟨some "eastmoney", some "Z", some 5, none, some 1, some "14:10"⟩

/-- C10, witness: with only `dwjz` missing the last net value defaults to the
holding's cost, and with both numeric keys missing both profits are 0 while
the source stays the quote's tag. -/
theorem view_defaults_missing_fields_witness :
    remoteDwjzMissingSample.dwjz = none ∧
    (compute_fund_view holdingSample (some remoteDwjzMissingSample)).dwjz =
      holdingSample.cost ∧
    remoteMissingSample.gsz = none ∧
    remoteMissingSample.dwjz = none ∧
    ((compute_fund_view holdingSample (some remoteMissingSample)).day_profit = 0 ∧
     (compute_fund_view holdingSample (some remoteMissingSample)).total_profit = 0) ∧
    (compute_fund_view holdingSample (some remoteMissingSample)).source =
      remoteMissingSample.source.getD "unknown" :=
  ⟨rfl,
   (view_defaults_missing_fields holdingSample remoteDwjzMissingSample).2.1 rfl,
   rfl, rfl,
   (view_defaults_missing_fields holdingSample remoteMissingSample).2.2.2.2.2 rfl rfl,
   (view_defaults_missing_fields holdingSample remoteMissingSample).2.2.2.2.1⟩

/-- C6 (confirmed): any sina record that the adapter turns into a quote
carries the derived percent change: `(gsz - dwjz) / dwjz * 100` whenever the
parsed last net value is non-zero, and exactly `0` when it is zero — the
division is guarded by the truthiness test `if dwjz:` and never performed in
the zero case. -/
theorem sina_percent_change (code : String) (r : SinaResponse) (q : RemoteQuote)
    (h : fetch_from_sina code r = Except.ok (some q)) :
    (q.dwjz ≠ 0 → q.gszzl = (q.gsz - q.dwjz) / q.dwjz * 100) ∧
    (q.dwjz = 0 → q.gszzl = 0) := by
  have hq : q.gszzl = if q.dwjz ≠ 0 then (q.gsz - q.dwjz) / q.dwjz * 100 else 0 := by
    cases r with
    | netFail => simp [fetch_from_sina, sina_body, isRequestException] at h
    | timedOut => simp [fetch_from_sina, sina_body, isRequestException] at h
    | noMatch => simp [fetch_from_sina, sina_body] at h
    | record fields =>
      have hrec : sina_record fields = Except.ok (some q) := by
        have hun : fetch_from_sina code (SinaResponse.record fields) =
            (match sina_record fields with
             | Except.ok x => Except.ok x
             | Except.error e =>
               if isRequestException e || isValueError e || e == PyExc.indexError
                 then Except.ok none else Except.error e) := rfl
        rcases hb : sina_record fields with e | x
        · rw [hun, hb] at h
          have h3 : (if isRequestException e || isValueError e ||
                e == PyExc.indexError
              then (Except.ok none : Except PyExc (Option RemoteQuote))
              else Except.error e) = Except.ok (some q) := h
          split at h3 <;> simp at h3
        · rw [hun, hb] at h
          have h3 : (Except.ok x : Except PyExc (Option RemoteQuote)) =
              Except.ok (some q) := h
          exact h3
      unfold sina_record at hrec
      split at hrec
      · simp at hrec
      · split at hrec
        · simp at hrec
        · split at hrec
          · simp at hrec
          · injection hrec with hb1
            injection hb1 with hb2
            subst hb2
            rfl
  refine ⟨fun hnz => ?_, fun hz => ?_⟩
  · rw [hq, if_pos hnz]
  · rw [hq, if_neg (fun hn => hn hz)]

/-- The quote the sina adapter builds from the record `X,2,a,1,14:00`. -/
def sinaParsedSample : RemoteQuote :=
  ⟨"sina", JsonVal.str "X", 2, 1, 100, JsonVal.str "14:00"⟩

/-- C6, witness: the record `X,2,a,1,14:00` parses to a quote with derived
percent change `(2 - 1) / 1 * 100 = 100`. -/
theorem sina_percent_change_witness :
    fetch_from_sina "000001" (SinaResponse.record ["X", "2", "a", "1", "14:00"]) =
      Except.ok (some sinaParsedSample) ∧
    ((sinaParsedSample.dwjz ≠ 0 →
        sinaParsedSample.gszzl =
          (sinaParsedSample.gsz - sinaParsedSample.dwjz) / sinaParsedSample.dwjz * 100) ∧
     (sinaParsedSample.dwjz = 0 → sinaParsedSample.gszzl = 0)) :=
  ⟨by with_unfolding_all rfl,
   sina_percent_change "000001" (SinaResponse.record ["X", "2", "a", "1", "14:00"])
     sinaParsedSample (by with_unfolding_all rfl)⟩

/-- Unrolling the `get_valuations` loop: starting from any accumulator, the
loop appends one view per holding and adds that view's three figures into the
running totals. -/
theorem get_valuations_fold (fetch : String → Option Remote) (l : List Holding) :
    ∀ acc : List FundView × ℚ × ℚ × ℚ,
      List.foldl (get_valuations_step fetch) acc l =
        (acc.1 ++ l.map (fun h => compute_fund_view h (fetch h.code)),
         acc.2.1 + (l.map (fun h => (compute_fund_view h (fetch h.code)).market_value)).sum,
         acc.2.2.1 + (l.map (fun h => (compute_fund_view h (fetch h.code)).day_profit)).sum,
         acc.2.2.2 + (l.map (fun h => (compute_fund_view h (fetch h.code)).total_profit)).sum) := by
  induction l with
  | nil => intro acc; simp
  | cons a t ih =>
    intro acc
    simp [get_valuations_step, ih, List.append_assoc, add_assoc]

/-- C7 (confirmed): the three summary totals produced by the valuation loop
equal the elementwise sums of `market_value`, `day_profit` and `total_profit`
over the full list of produced views, exactly as accumulated. -/
theorem valuations_summary_sums (holdings : List Holding)
    (fetch : String → Option Remote) :
    (get_valuations holdings fetch).2.1 =
      ((get_valuations holdings fetch).1.map FundView.market_value).sum ∧
    (get_valuations holdings fetch).2.2.1 =
      ((get_valuations holdings fetch).1.map FundView.day_profit).sum ∧
    (get_valuations holdings fetch).2.2.2 =
      ((get_valuations holdings fetch).1.map FundView.total_profit).sum := by
  unfold get_valuations
  rw [get_valuations_fold]
  simp [List.map_map, Function.comp_def]

/-- Mapping an update keyed on a code over a list containing no record with
that code changes nothing. -/
theorem map_update_id (code : String) (u : Holding → Holding)
    (t : List Holding) (ht : ∀ x ∈ t, x.code ≠ code) :
    t.map (fun h => if h.code = code then u h else h) = t := by
  induction t with
  | nil => simp
  | cons a s ih =>
    have ha := ht a (List.mem_cons_self a s)
    simp [ha, ih (fun x hx => ht x (List.mem_cons_of_mem a hx))]

/-- When no stored record carries the submitted code, `add_fund` appends one
fresh record at the end. -/
theorem add_fund_update_not_mem (code name : String) (shares cost : ℚ)
    (l : List Holding) (h : code ∉ l.map Holding.code) :
    add_fund_update code name shares cost l =
      l ++ [newHolding code name shares cost] := by
  induction l with
  | nil => simp [add_fund_update]
  | cons a t ih =>
    simp only [List.map_cons, List.mem_cons, not_or] at h
    have ha : a.code ≠ code := fun he => h.1 he.symm
    simp [add_fund_update, ha, ih h.2]

/-- When some stored record carries the submitted code and codes are unique,
`add_fund` rewrites exactly that record in place. -/
theorem add_fund_update_mem (code name : String) (shares cost : ℚ)
    (l : List Holding) (hnd : (l.map Holding.code).Nodup)
    (hmem : code ∈ l.map Holding.code) :
    add_fund_update code name shares cost l =
      l.map (fun h => if h.code = code then updateHolding name shares cost h else h) := by
  induction l with
  | nil => simp at hmem
  | cons a t ih =>
    simp only [List.map_cons, List.nodup_cons] at hnd
    by_cases ha : a.code = code
    · have hnotin : ∀ x ∈ t, x.code ≠ code := by
        intro x hx he
        exact hnd.1 (by rw [ha, ← he]; exact List.mem_map_of_mem Holding.code hx)
      simp [add_fund_update, ha, map_update_id code _ t hnotin]
    · have hmem2 : code ∈ t.map Holding.code := by
        rw [List.map_cons] at hmem
        rcases List.mem_cons.mp hmem with h1 | h2
        · exact absurd h1.symm ha
        · exact h2
      simp [add_fund_update, ha, ih hnd.2 hmem2]

/-- C8 (confirmed): on a holdings list with pairwise-distinct codes, adding a
fund with positive shares and cost keeps the codes pairwise distinct; if a
record with the code exists, exactly that record is rewritten in place (shares
and cost overwritten, the name only when non-empty) and the length is
unchanged; otherwise exactly one new record with that code is appended. -/
theorem add_fund_preserves_uniqueness (code name : String) (shares cost : ℚ)
    (holdings : List Holding) (hnd : (holdings.map Holding.code).Nodup)
    (hs : 0 < shares) (hc : 0 < cost) :
    ((add_fund_update code name shares cost holdings).map Holding.code).Nodup ∧
    (code ∈ holdings.map Holding.code →
      add_fund_update code name shares cost holdings =
        holdings.map (fun h => if h.code = code then updateHolding name shares cost h else h) ∧
      (add_fund_update code name shares cost holdings).length = holdings.length) ∧
    (code ∉ holdings.map Holding.code →
      add_fund_update code name shares cost holdings =
        holdings ++ [newHolding code name shares cost]) := by
  by_cases hmem : code ∈ holdings.map Holding.code
  · have heq := add_fund_update_mem code name shares cost holdings hnd hmem
    refine ⟨?_, fun _ => ⟨heq, by rw [heq]; simp⟩, fun hn => absurd hmem hn⟩
    rw [heq, List.map_map]
    have hcomp : (Holding.code ∘
        fun h => if h.code = code then updateHolding name shares cost h else h) =
        Holding.code := by
      funext h
      by_cases hh : h.code = code <;> simp [hh, updateHolding]
    rw [hcomp]
    exact hnd
  · have heq := add_fund_update_not_mem code name shares cost holdings hmem
    refine ⟨?_, fun hm => absurd hm hmem, fun _ => heq⟩
    rw [heq]
    simp [List.nodup_append, newHolding, hnd, hmem]

/-- A two-record holdings store with distinct codes. -/
def holdingsSample : List Holding :=
  [⟨"000001", some "A", 10, 1⟩, ⟨"000002", none, 5, 2⟩]

/-- C8, witness: updating the existing code `000002` on the two-record store. -/
theorem add_fund_preserves_uniqueness_witness :
    (holdingsSample.map Holding.code).Nodup ∧ 0 < (7 : ℚ) ∧ 0 < (3 : ℚ) ∧
    (((add_fund_update "000002" "B" 7 3 holdingsSample).map Holding.code).Nodup ∧
     ("000002" ∈ holdingsSample.map Holding.code →
       add_fund_update "000002" "B" 7 3 holdingsSample =
         holdingsSample.map
           (fun h => if h.code = "000002" then updateHolding "B" 7 3 h else h) ∧
       (add_fund_update "000002" "B" 7 3 holdingsSample).length =
         holdingsSample.length) ∧
     ("000002" ∉ holdingsSample.map Holding.code →
       add_fund_update "000002" "B" 7 3 holdingsSample =
         holdingsSample ++ [newHolding "000002" "B" 7 3])) :=
  ⟨by decide, by norm_num, by norm_num,
   add_fund_preserves_uniqueness "000002" "B" 7 3 holdingsSample (by decide)
     (by norm_num) (by norm_num)⟩

/-- C9 (confirmed): deleting a code keeps exactly the records whose code
differs, in their original relative order (the result is a sublist of the
store, every surviving record's code differs from the deleted one, every
record with a different code survives with its multiplicity, and a store with
no matching record is returned unchanged); the operation reports success
unconditionally. -/
theorem delete_fund_removes_exactly (code : String) (holdings : List Holding) :
    (delete_fund_update code holdings).2 = true ∧
    (delete_fund_update code holdings).1.Sublist holdings ∧
    (∀ h ∈ (delete_fund_update code holdings).1, h.code ≠ code) ∧
    (∀ h ∈ holdings, h.code ≠ code → h ∈ (delete_fund_update code holdings).1) ∧
    (∀ h : Holding, (delete_fund_update code holdings).1.count h =
      if h.code = code then 0 else holdings.count h) ∧
    ((∀ h ∈ holdings, h.code ≠ code) →
      (delete_fund_update code holdings).1 = holdings) := by
  refine ⟨rfl, List.filter_sublist _, ?_, ?_, ?_, ?_⟩
  · intro h hm
    simpa using (List.mem_filter.mp hm).2
  · intro h hm hne
    exact List.mem_filter.mpr ⟨hm, by simpa using hne⟩
  · intro h
    by_cases hh : h.code = code
    · rw [if_pos hh]
      refine List.count_eq_zero.mpr (fun hmem => ?_)
      exact absurd hh (by simpa using (List.mem_filter.mp hmem).2)
    · rw [if_neg hh]
      exact List.count_filter (by simpa using hh)
  · intro hall
    refine List.filter_eq_self.mpr (fun a ha => ?_)
    simpa using hall a ha
